import Mathlib

/-!
Verification of `reverb_inventory_tool.py` against its specification.

The Python module is shallowly embedded: JSON values become an inductive
type, Python dicts become association lists that keep insertion order
(Python 3.7+ dict semantics), exceptions become `Except`/explicit error
values, and the network, the file system and the CSV write become explicit
oracle arguments.  JSON numbers are modelled as integers; no claim
exercises floating point.
-/

/-! ## Data model -/

/-- A JSON-compatible Python value. -/
inductive Json where
  | null
  | bool (b : Bool)
  | num (n : Int)
  | str (s : String)
  | arr (xs : List Json)
  | obj (kvs : List (String × Json))

/-- A Python dict with string keys: an ordered association list. -/
abbrev PyDict := List (String × Json)

/-- `d.get(key)` / `d[key]`: the first binding wins (real dicts have unique keys). -/
def dictGet : PyDict → String → Option Json
  | [], _ => none
  | (k, v) :: rest, key => if k = key then some v else dictGet rest key

/-- `d.pop(key, default)` / `del d[key]`: drop the first binding of `key`. -/
def dictPop : PyDict → String → PyDict
  | [], _ => []
  | (k, v) :: rest, key => if k = key then rest else (k, v) :: dictPop rest key

/-- `d[key] = v`: replace the value in place if `key` is present, else append. -/
def dictSet : PyDict → String → Json → PyDict
  | [], key, v => [(key, v)]
  | (k, w) :: rest, key, v =>
      if k = key then (k, v) :: rest else (k, w) :: dictSet rest key v

/-- `list(d.keys())`. -/
def dictKeys (d : PyDict) : List String := d.map Prod.fst

/-- Python truthiness (`bool(x)`) of a JSON-compatible value. -/
def pyTruthy : Json → Bool
  | .null => false
  | .bool b => b
  | .num n => n != 0
  | .str s => s != ""
  | .arr xs => !xs.isEmpty
  | .obj kvs => !kvs.isEmpty

/-- `f"{type(x)}"`, e.g. `<class 'dict'>`. -/
def pyTypeName : Json → String
  | .null => "<class \x27NoneType\x27>"
  | .bool _ => "<class \x27bool\x27>"
  | .num _ => "<class \x27int\x27>"
  | .str _ => "<class \x27str\x27>"
  | .arr _ => "<class \x27list\x27>"
  | .obj _ => "<class \x27dict\x27>"

/-- Is the parsed value a Python `list` (`isinstance(data, list)`)? -/
def jsonIsList : Json → Bool
  | .arr _ => true
  | _ => false

/-! ## Decimal rendering of natural numbers

`f"product_image_{i}"` renders the index in decimal.  The rendering is
defined with explicit fuel so that it is structurally recursive (and hence
evaluates inside the kernel); injectivity is proved below via the base-10
value function. -/

def digitChar : Nat → Char
  | 0 => '0' | 1 => '1' | 2 => '2' | 3 => '3' | 4 => '4'
  | 5 => '5' | 6 => '6' | 7 => '7' | 8 => '8' | 9 => '9'
  | _ => '*'

/-- Base-10 digits of `n`, least significant first (`[]` for 0). -/
def lsdGo : Nat → Nat → List Nat
  | _, 0 => []
  | 0, _ + 1 => []
  | fuel + 1, n + 1 => ((n + 1) % 10) :: lsdGo fuel ((n + 1) / 10)

def lsd (n : Nat) : List Nat := lsdGo n n

/-- Value of a least-significant-first digit list. -/
def val10 : List Nat → Nat
  | [] => 0
  | d :: ds => d + 10 * val10 ds

/-- Python `str(i)` for a natural number. -/
def natStr (n : Nat) : String :=
  if n = 0 then "0" else ⟨((lsd n).map digitChar).reverse⟩

/-- The CSV column name for the photo at 1-based index `i`. -/
def imageKey (i : Nat) : String := "product_image_" ++ natStr i

/-! ## Rendering of Python values -/

/-- Python `repr` of a JSON value, with fuel for nesting depth.  The fuel
branch returning `""` is unreachable when the fuel bounds the nesting depth
(`jsonRepr` below always supplies `sizeOf j`).  Assumes string contents need
no escaping; no claim exercises nested-value rendering. -/
def jsonReprGo : Nat → Json → String
  | _, .null => "None"
  | _, .bool true => "True"
  | _, .bool false => "False"
  | _, .num n => toString n
  | _, .str s => "\x27" ++ s ++ "\x27"
  | 0, .arr _ => ""
  | 0, .obj _ => ""
  | fuel + 1, .arr xs =>
      "[" ++ String.intercalate ", " (xs.map (fun x => jsonReprGo fuel x)) ++ "]"
  | fuel + 1, .obj kvs =>
      "\x7b" ++ String.intercalate ", "
        (kvs.map (fun kv => "\x27" ++ kv.1 ++ "\x27: " ++ jsonReprGo fuel kv.2)) ++ "\x7d"

mutual

/-- A computable bound on the nesting depth, used as repr fuel. -/
def jsonSize : Json → Nat
  | .null => 1
  | .bool _ => 1
  | .num _ => 1
  | .str _ => 1
  | .arr xs => 1 + jsonSizeList xs
  | .obj kvs => 1 + jsonSizeObj kvs

def jsonSizeList : List Json → Nat
  | [] => 0
  | x :: xs => jsonSize x + jsonSizeList xs

def jsonSizeObj : List (String × Json) → Nat
  | [] => 0
  | kv :: kvs => jsonSize kv.2 + jsonSizeObj kvs

end

def jsonRepr (j : Json) : String := jsonReprGo (jsonSize j) j

/-- Python `str(x)` as used by f-string interpolation. -/
def pyStrF : Json → String
  | .null => "None"
  | .bool true => "True"
  | .bool false => "False"
  | .num n => toString n
  | .str s => s
  | .arr xs => jsonRepr (.arr xs)
  | .obj kvs => jsonRepr (.obj kvs)

/-- The `csv` module's rendering of one cell value: `None` becomes the
empty string, strings are written as-is, everything else via `str`. -/
def renderCsv : Json → String
  | .null => ""
  | v => pyStrF v

/-- `j.get(key)` on a decoded JSON object (`None` when missing). -/
def jsonGet (j : Json) (key : String) : Json :=
  match j with
  | .obj kvs => (dictGet kvs key).getD Json.null
  | _ => Json.null

/-! ## Exceptions -/

/-- The Python exception kinds the tool can raise or catch. -/
inductive PyError where
  | valueError (msg : String)
  | typeError (msg : String)
  | argumentTypeError (msg : String)
  | runtimeError (msg : String)
  | ioError (msg : String)

/-! ## The API client (`class ReverbAPI`)

`requests.request` is an oracle (`Network`) deciding, per argument tuple,
whether the library returns a response (with a final HTTP status, decoded
JSON body, and the `str` of the `HTTPError` that `raise_for_status` would
raise) or raises a `RequestException` with some message.

`_make_request` is decorated with `functools.lru_cache(maxsize=128)`.  The
wrapper hashes the argument tuple before dispatching to the wrapped
function; a `dict` argument (`params` or `data`) is unhashable, so such a
call raises `TypeError("unhashable type: 'dict'")` without any network
activity.  When `params` and `data` are both `None`, the key is determined
by `(method, endpoint)` (plus `self`, constant for one client instance),
which is how the cache below is keyed.  Only successful returns are cached;
the front of the list is most recently used and eviction drops the tail. -/

inductive NetResult where
  | resp (status : Nat) (body : Json) (errStr : String)
  | netErr (msg : String)

abbrev Network := String → String → Option PyDict → Option PyDict → NetResult

/-- `response.raise_for_status()` raises exactly for 4xx and 5xx statuses. -/
def statusRaises (status : Nat) : Bool := 400 ≤ status && status < 600

abbrev Cache := List ((String × String) × Json)

def cacheLookup : Cache → String × String → Option Json
  | [], _ => none
  | (k, v) :: rest, key => if k = key then some v else cacheLookup rest key

def cacheInsert (c : Cache) (key : String × String) (v : Json) : Cache :=
  ((key, v) :: c.filter (fun kv => !(kv.1 == key))).take 128

structure ApiState where
  cache : Cache
  netCalls : Nat

def apiInit : ApiState := ⟨[], 0⟩

/-- `ReverbAPI._make_request` together with its `lru_cache` wrapper.
Returns the call's outcome and the client state (cache, number of HTTP
requests actually issued). -/
def make_request (net : Network) (method endpoint : String)
    (params data : Option PyDict) (st : ApiState) :
    Except PyError Json × ApiState :=
  if params.isSome || data.isSome then
    (.error (.typeError "unhashable type: \x27dict\x27"), st)
  else
    match cacheLookup st.cache (method, endpoint) with
    | some v => (.ok v, ⟨cacheInsert st.cache (method, endpoint) v, st.netCalls⟩)
    | none =>
      match net method endpoint params data with
      | .netErr m =>
          (.error (.valueError ("Request error occurred: " ++ m)),
           ⟨st.cache, st.netCalls + 1⟩)
      | .resp status body errStr =>
          if statusRaises status then
            (.error (.valueError ("HTTP error occurred: " ++ errStr)),
             ⟨st.cache, st.netCalls + 1⟩)
          else
            (.ok body,
             ⟨cacheInsert st.cache (method, endpoint) body, st.netCalls + 1⟩)

def list_products (net : Network) (st : ApiState) : Except PyError Json × ApiState :=
  make_request net "GET" "my/listings" none none st

def create_product (net : Network) (product_data : PyDict) (st : ApiState) :
    Except PyError Json × ApiState :=
  make_request net "POST" "listings" none (some product_data) st

def update_product (net : Network) (sku : Json) (product_data : PyDict) (st : ApiState) :
    Except PyError Json × ApiState :=
  make_request net "PUT" ("listings/" ++ pyStrF sku) none (some product_data) st

/-! ## `read_json`

The file system is an oracle: `none` means the path does not exist
(`FileNotFoundError`); `some none` means the contents are not valid JSON
(`json.JSONDecodeError`); `some (some j)` means the contents parse to `j`. -/

def read_json (path : String) (file : Option (Option Json)) : Except PyError (List Json) :=
  match file with
  | none => .error (.argumentTypeError ("File not found: " ++ path))
  | some none => .error (.argumentTypeError ("Invalid JSON in file: " ++ path))
  | some (some (Json.arr items)) => .ok items
  | some (some j) =>
      .error (.argumentTypeError
        ("JSON file must contain a list of products. Found " ++ pyTypeName j ++ "."))

/-! ## `export_to_csv`

The CSV write is an oracle: `none` means `open`/write succeeds, `some e`
means an `IOError` with message `e` is raised (and caught locally).  The
outcome records what was printed and, on success, the rows written
(header first), each row a list of cells. -/

structure ExportOutcome where
  printed : List String
  written : Option (List (List String))

/-- The `for i, photo_url in enumerate(photos, 1)` loop body. -/
def addPhotos : PyDict → List Json → Nat → PyDict
  | d, [], _ => d
  | d, url :: rest, i => addPhotos (dictSet d (imageKey i) url) rest (i + 1)

/-- Per-record processing: copy, and if a `photos` key holds a list, pop it
and add one `product_image_<i>` column per photo (1-based). -/
def processProduct (p : PyDict) : PyDict :=
  match dictGet p "photos" with
  | some (Json.arr photos) => addPhotos (dictPop p "photos") photos 1
  | _ => p

/-- One cell written by `csv.DictWriter` (`restval ''` for a missing key). -/
def csvCell (d : PyDict) (k : String) : String :=
  match dictGet d k with
  | none => ""
  | some v => renderCsv v

/-- Code-point lexicographic comparison of character lists, as Python
compares strings.  (Executable counterpart of `· ≤ ·`; see
`strLe_iff_le`.) -/
def charListLe : List Char → List Char → Bool
  | [], _ => true
  | _ :: _, [] => false
  | c :: cs, d :: ds =>
      if c < d then true else if d < c then false else charListLe cs ds

/-- Python `s <= t` on strings. -/
def strLe (a b : String) : Bool := charListLe a.data b.data

/-- `sorted(list(all_headers))`: the union of all keys, sorted. -/
def sortedFieldnames (processed : List PyDict) : List String :=
  List.insertionSort (fun a b => strLe a b = true) ((processed.map dictKeys).flatten.dedup)

def export_to_csv (products : List PyDict) (path : String) (ioErr : Option String) :
    Except PyError ExportOutcome :=
  if products.isEmpty then
    .ok ⟨["No products to export."], none⟩
  else
    let processed := products.map processProduct
    let fieldnames := sortedFieldnames processed
    match ioErr with
    | some e => .ok ⟨["Error writing to file " ++ path ++ ": " ++ e], none⟩
    | none =>
        .ok ⟨["Successfully exported data to " ++ path],
          some (fieldnames :: processed.map (fun d => fieldnames.map (csvCell d)))⟩

/-- One physical CSV line (no cell in the claims needs quoting). -/
def csvLine (cells : List String) : String := String.intercalate "," cells

/-! ## The command dispatcher (`main`)

The `create`/`update` loops, with `ReverbAPI.create_product` /
`ReverbAPI.update_product` abstracted as an oracle.  A trace records what
was printed and which API calls were made, in order; a per-record failure
stops the loop and is returned together with the trace so far. -/

def skuNotice : String := "SKU is required for updating a product."

structure UpdateTrace where
  printed : List String
  calls : List (Json × PyDict)

def runUpdateLoop (api : Json → PyDict → Except PyError Json) :
    List PyDict → UpdateTrace → Option PyError × UpdateTrace
  | [], tr => (none, tr)
  | p :: rest, tr =>
    let sku := (dictGet p "sku").getD Json.null
    let remaining := dictPop p "sku"
    if pyTruthy sku then
      match api sku remaining with
      | .error e => (some e, ⟨tr.printed, tr.calls ++ [(sku, remaining)]⟩)
      | .ok updated =>
          runUpdateLoop api rest
            ⟨tr.printed ++ ["Updated product: " ++ pyStrF (jsonGet updated "title")],
             tr.calls ++ [(sku, remaining)]⟩
    else
      runUpdateLoop api rest ⟨tr.printed ++ [skuNotice], tr.calls⟩

structure CreateTrace where
  printed : List String
  calls : List PyDict

def runCreateLoop (api : PyDict → Except PyError Json) :
    List PyDict → CreateTrace → Option PyError × CreateTrace
  | [], tr => (none, tr)
  | p :: rest, tr =>
    match api p with
    | .error e => (some e, ⟨tr.printed, tr.calls ++ [p]⟩)
    | .ok created =>
        runCreateLoop api rest
          ⟨tr.printed ++ ["Created product: " ++ pyStrF (jsonGet created "title")],
           tr.calls ++ [p]⟩

/-- The top-level `except (RuntimeError, ValueError, argparse.ArgumentTypeError)`
handler: the message it prints, or `none` when the exception kind is not
caught there. -/
def catchesTop : PyError → Option String
  | .valueError m => some m
  | .argumentTypeError m => some m
  | .runtimeError m => some m
  | .typeError _ => none
  | .ioError _ => none

/-- The `update` command: run the loop, catching a propagated failure at the
top level of `main`. -/
def runUpdateCommand (api : Json → PyDict → Except PyError Json)
    (records : List PyDict) : Except PyError (List String) :=
  match runUpdateLoop api records ⟨[], []⟩ with
  | (none, tr) => .ok tr.printed
  | (some e, tr) =>
    match catchesTop e with
    | some m => .ok (tr.printed ++ ["Error: " ++ m])
    | none => .error e

/-! ## Mutable-object model of the export flattening loop

For the frame claim (`export_to_csv` leaves the input records unchanged)
the loop is modelled over an explicit object store: a list of dict objects
addressed by index.  `product.copy()` allocates a fresh object at the end
of the store; `pop` and item assignment mutate an object in place. -/

def storeGet (st : List PyDict) (r : Nat) : PyDict := st[r]?.getD []

def photosLoopStore : List PyDict → Nat → List Json → Nat → List PyDict
  | st, _, [], _ => st
  | st, nid, url :: rest, i =>
      photosLoopStore (st.set nid (dictSet (storeGet st nid) (imageKey i) url)) nid rest (i + 1)

/-- One iteration of the export loop on the record object at `r`:
`product.copy()` allocates a fresh object at index `st.length`, then
`pop("photos")` and the image-column assignments mutate that fresh object. -/
def flattenStep (st : List PyDict) (r : Nat) : List PyDict × Nat :=
  match dictGet (storeGet st r) "photos" with
  | some (Json.arr photos) =>
      (photosLoopStore ((st ++ [storeGet st r]).set st.length
        (dictPop (storeGet st r) "photos")) st.length photos 1, st.length)
  | _ => (st ++ [storeGet st r], st.length)

def flattenAll : List PyDict → List Nat → List PyDict × List Nat
  | st, [] => (st, [])
  | st, r :: rs =>
      let p := flattenStep st r
      let q := flattenAll p.1 rs
      (q.1, p.2 :: q.2)

/-! ## Substring search (to state "the message contains/identifies X") -/

def isPrefixChars : List Char → List Char → Bool
  | [], _ => true
  | _ :: _, [] => false
  | c :: cs, d :: ds => (c == d) && isPrefixChars cs ds

def hasSubstrChars : List Char → List Char → Bool
  | needle, [] => isPrefixChars needle []
  | needle, c :: cs => isPrefixChars needle (c :: cs) || hasSubstrChars needle cs

/-- `needle in hay` for strings. -/
def strContains (hay needle : String) : Bool := hasSubstrChars needle.data hay.data

/-! ## Concrete fixtures used by counterexamples and witnesses -/

/-- A network where every request succeeds with HTTP 200. -/
def netOk : Network := fun _ _ _ _ =>
  .resp 200 (Json.obj [("title", Json.str "New Product")]) ""

/-- A network whose (final, non-redirect) response has status 304. -/
def net304 : Network := fun _ _ _ _ =>
  .resp 304 (Json.obj [("ok", Json.bool true)]) "unused"

/-- A network where every request fails at transport level. -/
def netDown : Network := fun _ _ _ _ => .netErr "connection refused"

/-- A network returning HTTP 404 everywhere. -/
def net404 : Network := fun _ _ _ _ =>
  .resp 404 Json.null "404 Client Error: Not Found for url: https://api.reverb.com/api/bad"

def exampleRecord1 : PyDict :=
  [("sku", Json.str "123"), ("price", Json.str "100"),
   ("photos", Json.arr [Json.str "url1", Json.str "url2"])]

def exampleRecord2 : PyDict :=
  [("sku", Json.str "456"), ("price", Json.str "200"), ("title", Json.str "Another Item")]

def exampleProducts : List PyDict := [exampleRecord1, exampleRecord2]

def apiOk : Json → PyDict → Except PyError Json := fun _ _ =>
  .ok (Json.obj [("title", Json.str "Updated Product")])

def apiFail : Json → PyDict → Except PyError Json := fun _ _ =>
  .error (.valueError "HTTP error occurred: 404 Client Error")

def capiFail : PyDict → Except PyError Json := fun _ =>
  .error (.valueError "HTTP error occurred: 500 Server Error")

/-! ## Helper lemmas -/

theorem val10_lsdGo : ∀ fuel n, n ≤ fuel → val10 (lsdGo fuel n) = n := by
  intro fuel
  induction fuel with
  | zero => intro n h; interval_cases n; rfl
  | succ f ih =>
    intro n h
    match n with
    | 0 => rfl
    | m + 1 =>
      have hdiv : (m + 1) / 10 ≤ f := by omega
      simp only [lsdGo, val10, ih _ hdiv]
      omega

theorem val10_lsd (n : Nat) : val10 (lsd n) = n :=
  val10_lsdGo n n (Nat.le_refl n)

theorem lsdGo_lt10 : ∀ fuel n d, d ∈ lsdGo fuel n → d < 10 := by
  intro fuel
  induction fuel with
  | zero => intro n d h; cases n <;> simp [lsdGo] at h
  | succ f ih =>
    intro n d h
    match n with
    | 0 => simp [lsdGo] at h
    | m + 1 =>
      simp only [lsdGo, List.mem_cons] at h
      rcases h with h | h
      · omega
      · exact ih _ _ h

theorem digitChar_inj {a b : Nat} (ha : a < 10) (hb : b < 10)
    (h : digitChar a = digitChar b) : a = b := by
  interval_cases a <;> interval_cases b <;> simp_all [digitChar]

theorem map_digitChar_inj : ∀ xs ys : List Nat, (∀ x ∈ xs, x < 10) → (∀ y ∈ ys, y < 10) →
    xs.map digitChar = ys.map digitChar → xs = ys := by
  intro xs
  induction xs with
  | nil => intro ys _ _ h; cases ys <;> simp_all
  | cons x xs ih =>
    intro ys hx hy h
    cases ys with
    | nil => simp at h
    | cons y ys =>
      simp only [List.map_cons, List.cons.injEq] at h
      have hxy : x = y := digitChar_inj (hx x (by simp)) (hy y (by simp)) h.1
      have := ih ys (fun a ha => hx a (by simp [ha])) (fun a ha => hy a (by simp [ha])) h.2
      simp [hxy, this]

theorem natStr_injective : Function.Injective natStr := by
  intro m n h
  unfold natStr at h
  by_cases hm : m = 0 <;> by_cases hn : n = 0
  · omega
  · exfalso
    simp only [hm, if_pos rfl, if_neg hn] at h
    have hdata : ("0" : String).data = ((lsd n).map digitChar).reverse :=
      congrArg String.data h
    have h0 : ['0'] = ((lsd n).map digitChar).reverse := hdata
    have hrev : (lsd n).map digitChar = ['0'] := by
      have := congrArg List.reverse h0
      simpa using this.symm
    match hl : lsd n with
    | [] => rw [hl] at hrev; simp at hrev
    | d :: ds =>
      rw [hl] at hrev
      simp only [List.map_cons, List.cons.injEq] at hrev
      have hd10 : d < 10 :=
        lsdGo_lt10 n n d (by rw [show lsdGo n n = lsd n from rfl, hl]; simp)
      have hd0 : d = 0 := digitChar_inj hd10 (by omega) (by rw [hrev.1]; rfl)
      have hds : ds = [] := List.map_eq_nil_iff.mp hrev.2
      have hv := val10_lsd n
      rw [hl, hd0, hds] at hv
      simp [val10] at hv
      omega
  · exfalso
    simp only [hn, if_pos rfl, if_neg hm] at h
    have hdata : ((lsd m).map digitChar).reverse = ("0" : String).data :=
      congrArg String.data h
    have h0 : ((lsd m).map digitChar).reverse = ['0'] := hdata
    have hrev : (lsd m).map digitChar = ['0'] := by
      have := congrArg List.reverse h0
      simpa using this
    match hl : lsd m with
    | [] => rw [hl] at hrev; simp at hrev
    | d :: ds =>
      rw [hl] at hrev
      simp only [List.map_cons, List.cons.injEq] at hrev
      have hd10 : d < 10 :=
        lsdGo_lt10 m m d (by rw [show lsdGo m m = lsd m from rfl, hl]; simp)
      have hd0 : d = 0 := digitChar_inj hd10 (by omega) (by rw [hrev.1]; rfl)
      have hds : ds = [] := List.map_eq_nil_iff.mp hrev.2
      have hv := val10_lsd m
      rw [hl, hd0, hds] at hv
      simp [val10] at hv
      omega
  · simp only [if_neg hm, if_neg hn] at h
    have hdata := congrArg String.data h
    have hrev : ((lsd m).map digitChar).reverse = ((lsd n).map digitChar).reverse := hdata
    have hmap : (lsd m).map digitChar = (lsd n).map digitChar :=
      List.reverse_injective hrev
    have hlsd : lsd m = lsd n :=
      map_digitChar_inj _ _ (fun d hd => lsdGo_lt10 m m d hd)
        (fun d hd => lsdGo_lt10 n n d hd) hmap
    have := congrArg val10 hlsd
    rwa [val10_lsd, val10_lsd] at this

theorem imageKey_injective : Function.Injective imageKey := by
  intro i j h
  unfold imageKey at h
  have hdata := congrArg String.data h
  have : ("product_image_" : String).data ++ (natStr i).data =
      ("product_image_" : String).data ++ (natStr j).data := hdata
  have hsfx : (natStr i).data = (natStr j).data := by
    exact List.append_cancel_left this
  exact natStr_injective (by cases hni : natStr i; cases hnj : natStr j
                             simp_all)

theorem imageKey_ne_photos (i : Nat) : imageKey i ≠ "photos" := by
  intro h
  have hlen : ("product_image_" : String).data.length + (natStr i).data.length =
      ("photos" : String).data.length := by
    have h2 := congrArg (fun s => s.data.length) h
    simp only [imageKey] at h2
    rw [show ("product_image_" ++ natStr i).data =
        ("product_image_" : String).data ++ (natStr i).data from rfl,
      List.length_append] at h2
    exact h2
  have h14 : ("product_image_" : String).data.length = 14 := rfl
  have h6 : ("photos" : String).data.length = 6 := rfl
  omega

theorem isPrefixChars_self_append : ∀ xs ys : List Char, isPrefixChars xs (xs ++ ys) = true := by
  intro xs
  induction xs with
  | nil => intro ys; rfl
  | cons c cs ih => intro ys; simp [isPrefixChars, ih]

theorem hasSubstrChars_of_prefix : ∀ needle hay : List Char,
    isPrefixChars needle hay = true → hasSubstrChars needle hay = true := by
  intro needle hay h
  cases hay with
  | nil => simpa [hasSubstrChars] using h
  | cons c cs => simp [hasSubstrChars, h]

theorem hasSubstrChars_append_middle : ∀ pre mid post : List Char,
    hasSubstrChars mid (pre ++ (mid ++ post)) = true := by
  intro pre
  induction pre with
  | nil =>
    intro mid post
    exact hasSubstrChars_of_prefix mid (mid ++ post) (isPrefixChars_self_append mid post)
  | cons c cs ih =>
    intro mid post
    simp [hasSubstrChars, ih mid post]

theorem charListLe_iff_le : ∀ xs ys : List Char, charListLe xs ys = true ↔ xs ≤ ys := by
  intro xs
  induction xs with
  | nil =>
    intro ys
    simp only [charListLe]
    rw [← not_lt]
    constructor
    · intro _ h; cases h
    · intro _; trivial
  | cons c cs ih =>
    intro ys
    cases ys with
    | nil =>
      simp only [charListLe]
      rw [← not_lt]
      constructor
      · intro h; simp at h
      · intro h; exact absurd List.Lex.nil h
    | cons d ds =>
      simp only [charListLe]
      rw [← not_lt]
      by_cases hcd : c < d
      · rw [if_pos hcd]
        refine iff_of_true rfl ?_
        intro h
        cases h with
        | cons h' => exact absurd hcd (lt_irrefl _)
        | rel h' => exact absurd hcd (asymm h')
      · by_cases hdc : d < c
        · rw [if_neg hcd, if_pos hdc]
          refine iff_of_false (by simp) ?_
          exact not_not_intro (List.Lex.rel hdc)
        · have heq : c = d := le_antisymm (not_lt.mp hdc) (not_lt.mp hcd)
          subst heq
          rw [if_neg hcd, if_neg hdc, ih ds, ← not_lt]
          constructor
          · intro h hlex
            cases hlex with
            | cons h' => exact h h'
            | rel h' => exact absurd h' (lt_irrefl _)
          · intro h hlex
            exact h (List.Lex.cons hlex)

theorem strLe_iff_le (a b : String) : strLe a b = true ↔ a ≤ b := by
  rw [String.le_iff_toList_le]
  exact charListLe_iff_le a.data b.data

theorem strAppend_assoc (a b c : String) : a ++ b ++ c = a ++ (b ++ c) :=
  String.toList_inj.mp (List.append_assoc a.data b.data c.data)

theorem strContains_append_right (a b : String) : strContains (a ++ b) b = true := by
  unfold strContains
  rw [show (a ++ b).data = a.data ++ (b.data ++ []) from by rw [List.append_nil]; rfl]
  exact hasSubstrChars_append_middle a.data b.data []

theorem strContains_append_left (a b : String) : strContains (a ++ b) a = true := by
  unfold strContains
  rw [show (a ++ b).data = [] ++ (a.data ++ b.data) from rfl]
  exact hasSubstrChars_append_middle [] a.data b.data

theorem strContains_middle (a b c : String) : strContains (a ++ b ++ c) b = true := by
  unfold strContains
  rw [show (a ++ b ++ c).data = a.data ++ (b.data ++ c.data) from by
    rw [show (a ++ b ++ c).data = (a.data ++ b.data) ++ c.data from rfl, List.append_assoc]]
  exact hasSubstrChars_append_middle a.data b.data c.data

theorem dictGet_dictSet_self : ∀ (d : PyDict) (k : String) (v : Json),
    dictGet (dictSet d k v) k = some v := by
  intro d k v
  induction d with
  | nil => simp [dictSet, dictGet]
  | cons kv rest ih =>
    by_cases h : kv.1 = k
    · simp [dictSet, h, dictGet]
    · simp [dictSet, h, dictGet, ih]

theorem dictGet_dictSet_ne : ∀ (d : PyDict) (k : String) (v : Json) (q : String), q ≠ k →
    dictGet (dictSet d k v) q = dictGet d q := by
  intro d k v q hq
  have hkq : ¬ k = q := fun hh => hq hh.symm
  induction d with
  | nil => simp only [dictSet, dictGet, if_neg hkq]
  | cons kv rest ih =>
    rcases kv with ⟨k1, w⟩
    by_cases h : k1 = k
    · subst h
      simp only [dictSet, if_pos rfl, dictGet, if_neg hkq]
    · simp only [dictSet, if_neg h, dictGet]
      by_cases h2 : k1 = q
      · rw [if_pos h2, if_pos h2]
      · rw [if_neg h2, if_neg h2]
        exact ih

theorem dictGet_of_not_mem_keys : ∀ (d : PyDict) (k : String), k ∉ dictKeys d →
    dictGet d k = none := by
  intro d k h
  induction d with
  | nil => rfl
  | cons kv rest ih =>
    rcases kv with ⟨k1, w⟩
    simp only [dictKeys, List.map_cons, List.mem_cons, not_or] at h
    simp only [dictGet, if_neg (show ¬ k1 = k from fun hh => h.1 hh.symm)]
    exact ih h.2

theorem dictGet_dictPop_self : ∀ d : PyDict, ∀ k : String, (dictKeys d).Nodup →
    dictGet (dictPop d k) k = none := by
  intro d
  induction d with
  | nil => intro k _; rfl
  | cons kv rest ih =>
    intro k hn
    rcases kv with ⟨k1, w⟩
    simp only [dictKeys, List.map_cons, List.nodup_cons] at hn
    by_cases h : k1 = k
    · subst h
      simp only [dictPop, if_pos rfl]
      exact dictGet_of_not_mem_keys rest k1 hn.1
    · simp only [dictPop, if_neg h, dictGet, if_neg h]
      exact ih k hn.2

theorem dictGet_dictPop_ne : ∀ (d : PyDict) (k q : String), q ≠ k →
    dictGet (dictPop d k) q = dictGet d q := by
  intro d k q hq
  induction d with
  | nil => rfl
  | cons kv rest ih =>
    rcases kv with ⟨k1, w⟩
    by_cases h : k1 = k
    · subst h
      simp [dictPop, dictGet, show ¬ k1 = q from fun hh => hq hh.symm]
    · simp only [dictPop, if_neg h, dictGet]
      by_cases h2 : k1 = q
      · rw [if_pos h2, if_pos h2]
      · rw [if_neg h2, if_neg h2]
        exact ih

theorem addPhotos_frame : ∀ (photos : List Json) (d : PyDict) (i : Nat) (key : String),
    (∀ t, t < photos.length → key ≠ imageKey (i + t)) →
    dictGet (addPhotos d photos i) key = dictGet d key := by
  intro photos
  induction photos with
  | nil => intro d i key _; rfl
  | cons url rest ih =>
    intro d i key hk
    simp only [addPhotos]
    rw [ih (dictSet d (imageKey i) url) (i + 1) key
      (fun t ht => by
        have := hk (t + 1) (by simp; omega)
        rwa [show i + (t + 1) = i + 1 + t from by omega] at this)]
    exact dictGet_dictSet_ne d (imageKey i) url key
      (by have := hk 0 (by simp); rwa [Nat.add_zero] at this)

theorem addPhotos_index : ∀ (photos : List Json) (d : PyDict) (i j : Nat),
    j < photos.length →
    dictGet (addPhotos d photos i) (imageKey (i + j)) = photos[j]? := by
  intro photos
  induction photos with
  | nil => intro d i j h; simp at h
  | cons url rest ih =>
    intro d i j hj
    match j with
    | 0 =>
      simp only [Nat.add_zero, addPhotos, List.getElem?_cons_zero]
      rw [addPhotos_frame rest (dictSet d (imageKey i) url) (i + 1) (imageKey i)
        (fun t _ => by
          intro heq
          have := imageKey_injective heq
          omega)]
      exact dictGet_dictSet_self d (imageKey i) url
    | j' + 1 =>
      simp only [addPhotos, List.getElem?_cons_succ]
      rw [show i + (j' + 1) = (i + 1) + j' from by omega]
      exact ih (dictSet d (imageKey i) url) (i + 1) j' (by simp at hj; omega)

theorem updateLoop_step_none (api : Json → PyDict → Except PyError Json)
    (p : PyDict) (rest : List PyDict) (tr : UpdateTrace)
    (h : dictGet p "sku" = none) :
    runUpdateLoop api (p :: rest) tr =
      runUpdateLoop api rest ⟨tr.printed ++ [skuNotice], tr.calls⟩ := by
  simp only [runUpdateLoop]
  rw [h]
  rfl

theorem updateLoop_step_falsy (api : Json → PyDict → Except PyError Json)
    (p : PyDict) (rest : List PyDict) (tr : UpdateTrace) (v : Json)
    (hv : dictGet p "sku" = some v) (hf : pyTruthy v = false) :
    runUpdateLoop api (p :: rest) tr =
      runUpdateLoop api rest ⟨tr.printed ++ [skuNotice], tr.calls⟩ := by
  simp only [runUpdateLoop]
  rw [hv]
  simp [hf]

theorem updateLoop_step_error (api : Json → PyDict → Except PyError Json)
    (p : PyDict) (rest : List PyDict) (tr : UpdateTrace) (v : Json) (e : PyError)
    (hv : dictGet p "sku" = some v) (ht : pyTruthy v = true)
    (ha : api v (dictPop p "sku") = .error e) :
    runUpdateLoop api (p :: rest) tr =
      (some e, ⟨tr.printed, tr.calls ++ [(v, dictPop p "sku")]⟩) := by
  simp only [runUpdateLoop]
  rw [hv]
  simp [ht, ha]

theorem updateLoop_step_ok (api : Json → PyDict → Except PyError Json)
    (p : PyDict) (rest : List PyDict) (tr : UpdateTrace) (v : Json) (u : Json)
    (hv : dictGet p "sku" = some v) (ht : pyTruthy v = true)
    (ha : api v (dictPop p "sku") = .ok u) :
    runUpdateLoop api (p :: rest) tr =
      runUpdateLoop api rest
        ⟨tr.printed ++ ["Updated product: " ++ pyStrF (jsonGet u "title")],
         tr.calls ++ [(v, dictPop p "sku")]⟩ := by
  simp only [runUpdateLoop]
  rw [hv]
  simp [ht, ha]

theorem runUpdateLoop_append (api : Json → PyDict → Except PyError Json) :
    ∀ (xs ys : List PyDict) (tr : UpdateTrace),
    runUpdateLoop api (xs ++ ys) tr =
      match runUpdateLoop api xs tr with
      | (none, tr2) => runUpdateLoop api ys tr2
      | (some e, tr2) => (some e, tr2) := by
  intro xs
  induction xs with
  | nil => intro ys tr; rfl
  | cons p xs ih =>
    intro ys tr
    simp only [List.cons_append, runUpdateLoop]
    by_cases h : pyTruthy ((dictGet p "sku").getD Json.null) = true
    · rw [if_pos h, if_pos h]
      cases hapi : api ((dictGet p "sku").getD Json.null) (dictPop p "sku") with
      | error e => rfl
      | ok u => exact ih ys _
    · rw [if_neg h, if_neg h]
      exact ih ys _

theorem createLoop_step_error (api : PyDict → Except PyError Json)
    (p : PyDict) (rest : List PyDict) (tr : CreateTrace) (e : PyError)
    (ha : api p = .error e) :
    runCreateLoop api (p :: rest) tr = (some e, ⟨tr.printed, tr.calls ++ [p]⟩) := by
  simp only [runCreateLoop]
  rw [ha]

theorem runCreateLoop_append (api : PyDict → Except PyError Json) :
    ∀ (xs ys : List PyDict) (tr : CreateTrace),
    runCreateLoop api (xs ++ ys) tr =
      match runCreateLoop api xs tr with
      | (none, tr2) => runCreateLoop api ys tr2
      | (some e, tr2) => (some e, tr2) := by
  intro xs
  induction xs with
  | nil => intro ys tr; rfl
  | cons p xs ih =>
    intro ys tr
    simp only [List.cons_append, runCreateLoop]
    cases hapi : api p with
    | error e => rfl
    | ok u => exact ih ys _

theorem photosLoopStore_frame : ∀ (photos : List Json) (st : List PyDict) (nid i q : Nat),
    q ≠ nid → storeGet (photosLoopStore st nid photos i) q = storeGet st q := by
  intro photos
  induction photos with
  | nil => intro st nid i q _; rfl
  | cons url rest ih =>
    intro st nid i q hq
    simp only [photosLoopStore]
    rw [ih _ nid (i + 1) q hq]
    unfold storeGet
    rw [List.getElem?_set_ne (show nid ≠ q from fun hh => hq hh.symm)]

theorem photosLoopStore_length : ∀ (photos : List Json) (st : List PyDict) (nid i : Nat),
    (photosLoopStore st nid photos i).length = st.length := by
  intro photos
  induction photos with
  | nil => intro st nid i; rfl
  | cons url rest ih =>
    intro st nid i
    simp only [photosLoopStore]
    rw [ih _ nid (i + 1), List.length_set]

theorem photosLoopStore_get_self : ∀ (photos : List Json) (st : List PyDict) (nid i : Nat),
    nid < st.length →
    storeGet (photosLoopStore st nid photos i) nid = addPhotos (storeGet st nid) photos i := by
  intro photos
  induction photos with
  | nil => intro st nid i _; rfl
  | cons url rest ih =>
    intro st nid i hn
    simp only [photosLoopStore, addPhotos]
    rw [ih _ nid (i + 1) (by rw [List.length_set]; exact hn)]
    unfold storeGet
    rw [List.getElem?_set_self hn]
    rfl

theorem flattenStep_eq_photos (st : List PyDict) (r : Nat) (photos : List Json)
    (h : dictGet (storeGet st r) "photos" = some (Json.arr photos)) :
    flattenStep st r =
      (photosLoopStore ((st ++ [storeGet st r]).set st.length
        (dictPop (storeGet st r) "photos")) st.length photos 1, st.length) := by
  unfold flattenStep
  rw [h]

theorem flattenStep_eq_none (st : List PyDict) (r : Nat)
    (h : dictGet (storeGet st r) "photos" = none) :
    flattenStep st r = (st ++ [storeGet st r], st.length) := by
  unfold flattenStep
  rw [h]

theorem flattenStep_eq_other (st : List PyDict) (r : Nat) (v : Json)
    (h : dictGet (storeGet st r) "photos" = some v) (hv : jsonIsList v = false) :
    flattenStep st r = (st ++ [storeGet st r], st.length) := by
  unfold flattenStep
  rw [h]
  cases v <;> first | rfl | simp [jsonIsList] at hv

theorem flattenStep_frame (st : List PyDict) (r q : Nat) (h : q < st.length) :
    storeGet (flattenStep st r).1 q = storeGet st q := by
  rcases hph : dictGet (storeGet st r) "photos" with _ | v
  · rw [flattenStep_eq_none st r hph]
    unfold storeGet
    rw [List.getElem?_append_left h]
  · cases v with
    | arr photos =>
      rw [flattenStep_eq_photos st r photos hph]
      dsimp only
      rw [photosLoopStore_frame _ _ _ _ q (by omega)]
      unfold storeGet
      rw [List.getElem?_set_ne (by omega), List.getElem?_append_left h]
    | null =>
      rw [flattenStep_eq_other st r _ hph rfl]
      unfold storeGet
      rw [List.getElem?_append_left h]
    | bool b =>
      rw [flattenStep_eq_other st r _ hph rfl]
      unfold storeGet
      rw [List.getElem?_append_left h]
    | num n =>
      rw [flattenStep_eq_other st r _ hph rfl]
      unfold storeGet
      rw [List.getElem?_append_left h]
    | str s =>
      rw [flattenStep_eq_other st r _ hph rfl]
      unfold storeGet
      rw [List.getElem?_append_left h]
    | obj kvs =>
      rw [flattenStep_eq_other st r _ hph rfl]
      unfold storeGet
      rw [List.getElem?_append_left h]

theorem flattenStep_length (st : List PyDict) (r : Nat) :
    (flattenStep st r).1.length = st.length + 1 := by
  rcases hph : dictGet (storeGet st r) "photos" with _ | v
  · rw [flattenStep_eq_none st r hph]
    dsimp only
    rw [List.length_append]
    rfl
  · cases v with
    | arr photos =>
      rw [flattenStep_eq_photos st r photos hph]
      dsimp only
      rw [photosLoopStore_length, List.length_set, List.length_append]
      rfl
    | null =>
      rw [flattenStep_eq_other st r _ hph rfl]
      dsimp only
      rw [List.length_append]
      rfl
    | bool b =>
      rw [flattenStep_eq_other st r _ hph rfl]
      dsimp only
      rw [List.length_append]
      rfl
    | num n =>
      rw [flattenStep_eq_other st r _ hph rfl]
      dsimp only
      rw [List.length_append]
      rfl
    | str s =>
      rw [flattenStep_eq_other st r _ hph rfl]
      dsimp only
      rw [List.length_append]
      rfl
    | obj kvs =>
      rw [flattenStep_eq_other st r _ hph rfl]
      dsimp only
      rw [List.length_append]
      rfl

theorem flattenStep_result (st : List PyDict) (r : Nat) :
    storeGet (flattenStep st r).1 (flattenStep st r).2 = processProduct (storeGet st r) := by
  rcases hph : dictGet (storeGet st r) "photos" with _ | v
  · rw [flattenStep_eq_none st r hph]
    dsimp only
    unfold processProduct
    rw [hph]
    unfold storeGet
    rw [List.getElem?_concat_length]
    rfl
  · cases v with
    | arr photos =>
      rw [flattenStep_eq_photos st r photos hph]
      dsimp only
      unfold processProduct
      rw [hph]
      rw [photosLoopStore_get_self _ _ _ _
        (by rw [List.length_set, List.length_append, List.length_singleton]; omega)]
      unfold storeGet
      rw [List.getElem?_set_self (by rw [List.length_append, List.length_singleton]; omega)]
      rfl
    | null =>
      rw [flattenStep_eq_other st r _ hph rfl]
      dsimp only
      unfold processProduct
      rw [hph]
      unfold storeGet
      rw [List.getElem?_concat_length]
      rfl
    | bool b =>
      rw [flattenStep_eq_other st r _ hph rfl]
      dsimp only
      unfold processProduct
      rw [hph]
      unfold storeGet
      rw [List.getElem?_concat_length]
      rfl
    | num n =>
      rw [flattenStep_eq_other st r _ hph rfl]
      dsimp only
      unfold processProduct
      rw [hph]
      unfold storeGet
      rw [List.getElem?_concat_length]
      rfl
    | str s =>
      rw [flattenStep_eq_other st r _ hph rfl]
      dsimp only
      unfold processProduct
      rw [hph]
      unfold storeGet
      rw [List.getElem?_concat_length]
      rfl
    | obj kvs =>
      rw [flattenStep_eq_other st r _ hph rfl]
      dsimp only
      unfold processProduct
      rw [hph]
      unfold storeGet
      rw [List.getElem?_concat_length]
      rfl

/-! ## Claims -/

/-- C1: the spec requires that every request-primitive call — including the
JSON-body calls issued by `create_product` and `update_product` — performs
exactly one HTTP request on a 2xx response and returns the decoded body,
with the optional result cache never changing observable behavior.  The
code violates this: the `lru_cache` wrapper hashes the argument tuple, a
dict is unhashable, so every body-carrying call raises `TypeError` and
performs no HTTP request at all; only body-less calls such as
`list_products` behave as specified (one request, decoded body). -/
theorem c1_lru_cache_unhashable_body :
    create_product netOk [("title", Json.str "Guitar")] apiInit =
      (.error (.typeError "unhashable type: \x27dict\x27"), apiInit) ∧
    update_product netOk (Json.str "123") [("price", Json.str "100")] apiInit =
      (.error (.typeError "unhashable type: \x27dict\x27"), apiInit) ∧
    list_products netOk apiInit =
      (.ok (Json.obj [("title", Json.str "New Product")]),
       ⟨[(("GET", "my/listings"), Json.obj [("title", Json.str "New Product")])], 1⟩) :=
  ⟨rfl, rfl, rfl⟩

/-- C2 counterexample: a non-2xx final HTTP status that is not 4xx/5xx
(here 304, which `requests` does not follow as a redirect) does not surface
as a `ValueError`: `raise_for_status` does not raise and the decoded body
is returned. -/
theorem c2_non2xx_not_valueerror :
    (make_request net304 "GET" "my/listings" none none apiInit).1 =
      .ok (Json.obj [("ok", Json.bool true)]) ∧
    ¬ (200 ≤ 304 ∧ 304 < 300) ∧
    (∀ e, (make_request net304 "GET" "my/listings" none none apiInit).1 ≠ .error e) := by
  refine ⟨rfl, by decide, ?_⟩
  intro e h
  rw [show (make_request net304 "GET" "my/listings" none none apiInit).1 =
      Except.ok (Json.obj [("ok", Json.bool true)]) from rfl] at h
  exact Except.noConfusion h

/-- C2 (amended): for every call that actually reaches the network (hashable
arguments, cache miss), an HTTP status in 400–599 and any transport-level
failure both surface as a `ValueError` carrying the underlying cause
message, never swallowed; in the HTTP-status case the message contains
"HTTP error occurred".  Statuses outside 200–299 that are not 4xx/5xx
(e.g. 304) are returned as success instead. -/
theorem c2_http_and_transport_errors (net : Network) (method endpoint : String)
    (st : ApiState) (hmiss : cacheLookup st.cache (method, endpoint) = none) :
    (∀ m, net method endpoint none none = .netErr m →
      make_request net method endpoint none none st =
        (.error (.valueError ("Request error occurred: " ++ m)),
         ⟨st.cache, st.netCalls + 1⟩) ∧
      strContains ("Request error occurred: " ++ m) m = true) ∧
    (∀ status body errStr, net method endpoint none none = .resp status body errStr →
      400 ≤ status → status < 600 →
      make_request net method endpoint none none st =
        (.error (.valueError ("HTTP error occurred: " ++ errStr)),
         ⟨st.cache, st.netCalls + 1⟩) ∧
      strContains ("HTTP error occurred: " ++ errStr) "HTTP error occurred" = true ∧
      strContains ("HTTP error occurred: " ++ errStr) errStr = true) := by
  constructor
  · intro m hm
    constructor
    · unfold make_request
      simp only [Option.isSome_none, Bool.or_self, Bool.false_eq_true, if_false, hmiss, hm]
    · exact strContains_append_right _ m
  · intro status body errStr hr h4 h6
    have hraises : statusRaises status = true := by
      unfold statusRaises
      rw [Bool.and_eq_true]
      exact ⟨decide_eq_true h4, decide_eq_true h6⟩
    refine ⟨?_, ?_, ?_⟩
    · unfold make_request
      simp only [Option.isSome_none, Bool.or_self, Bool.false_eq_true, if_false, hmiss, hr,
        hraises, if_true]
    · rw [show ("HTTP error occurred: " : String) = "HTTP error occurred" ++ ": " from rfl,
        strAppend_assoc]
      exact strContains_append_left "HTTP error occurred" (": " ++ errStr)
    · exact strContains_append_right "HTTP error occurred: " errStr

/-- C2 witness: the amended theorem applied to a concrete transport failure
on a fresh client. -/
theorem c2_http_and_transport_errors_witness :
    make_request netDown "GET" "my/listings" none none apiInit =
      (.error (.valueError ("Request error occurred: " ++ "connection refused")), ⟨[], 1⟩) ∧
    strContains ("Request error occurred: " ++ "connection refused") "connection refused" = true :=
  (c2_http_and_transport_errors netDown "GET" "my/listings" apiInit rfl).1 "connection refused" rfl

/-- C3 counterexample: the not-an-array error message names the actual type
but does not contain the file path, so "in every case the error message
identifies the file path" fails. -/
theorem c3_type_error_message_lacks_path :
    read_json "data.json" (some (some (Json.obj []))) =
      .error (.argumentTypeError
        "JSON file must contain a list of products. Found <class \x27dict\x27>.") ∧
    strContains "JSON file must contain a list of products. Found <class \x27dict\x27>."
      "data.json" = false :=
  ⟨rfl, by decide⟩

/-- C3 (amended): `read_json` fails with three pairwise-distinct errors —
file missing, invalid JSON, parsed value not a list; the first two messages
contain the file path, and the third names the actual Python type (but not
the path). -/
theorem c3_read_json_errors (path : String) (j : Json) (hj : jsonIsList j = false) :
    (read_json path none =
        .error (.argumentTypeError ("File not found: " ++ path)) ∧
      strContains ("File not found: " ++ path) path = true) ∧
    (read_json path (some none) =
        .error (.argumentTypeError ("Invalid JSON in file: " ++ path)) ∧
      strContains ("Invalid JSON in file: " ++ path) path = true) ∧
    (read_json path (some (some j)) =
        .error (.argumentTypeError
          ("JSON file must contain a list of products. Found " ++ pyTypeName j ++ ".")) ∧
      strContains ("JSON file must contain a list of products. Found " ++ pyTypeName j ++ ".")
        (pyTypeName j) = true) ∧
    ("File not found: " ++ path) ≠ ("Invalid JSON in file: " ++ path) ∧
    ("File not found: " ++ path) ≠
      ("JSON file must contain a list of products. Found " ++ pyTypeName j ++ ".") ∧
    ("Invalid JSON in file: " ++ path) ≠
      ("JSON file must contain a list of products. Found " ++ pyTypeName j ++ ".") := by
  refine ⟨⟨rfl, strContains_append_right _ path⟩,
    ⟨rfl, strContains_append_right _ path⟩, ⟨?_, ?_⟩, ?_, ?_, ?_⟩
  · cases j with
    | arr xs => simp [jsonIsList] at hj
    | null => rfl
    | bool b => rfl
    | num n => rfl
    | str s => rfl
    | obj kvs => rfl
  · exact strContains_middle "JSON file must contain a list of products. Found "
      (pyTypeName j) "."
  · intro h
    have h2 : (some 'F' : Option Char) = some 'I' :=
      congrArg (fun s => s.data.head?) h
    exact absurd h2 (by decide)
  · intro h
    have h2 : (some 'F' : Option Char) = some 'J' :=
      congrArg (fun s => s.data.head?) h
    exact absurd h2 (by decide)
  · intro h
    have h2 : (some 'I' : Option Char) = some 'J' :=
      congrArg (fun s => s.data.head?) h
    exact absurd h2 (by decide)

/-- C3 witness: the amended theorem applied to the path `data.json` and a
JSON object as the non-list parsed value. -/
theorem c3_read_json_errors_witness :
    jsonIsList (Json.obj []) = false ∧
    (read_json "data.json" none =
        .error (.argumentTypeError ("File not found: " ++ "data.json")) ∧
      strContains ("File not found: " ++ "data.json") "data.json" = true) :=
  ⟨rfl, (c3_read_json_errors "data.json" (Json.obj []) rfl).1⟩

/-- C4: for every non-empty product list the export writes a header that is
the lexicographically sorted, duplicate-free union of the processed records'
keys, followed by one row per record in input order whose cells come from
the processed record (missing keys rendering as empty cells); processing a
record with a list-valued `photos` key removes that key, adds one
`product_image_<i>` column per photo (1-based), and leaves all other keys
unchanged; the spec's two-record example produces exactly the stated header
and rows. -/
theorem c4_export_to_csv_contract :
    (∀ (products : List PyDict) (path : String), products ≠ [] →
      ∃ hdr rows,
        export_to_csv products path none =
          .ok ⟨["Successfully exported data to " ++ path], some (hdr :: rows)⟩ ∧
        hdr.Sorted (fun a b : String => a ≤ b) ∧
        hdr.Nodup ∧
        (∀ k, k ∈ hdr ↔ ∃ p ∈ products, k ∈ dictKeys (processProduct p)) ∧
        rows = products.map (fun p => hdr.map (csvCell (processProduct p)))) ∧
    (∀ (d : PyDict) (k : String), dictGet d k = none → csvCell d k = "") ∧
    (∀ (p : PyDict) (photos : List Json), (dictKeys p).Nodup →
      dictGet p "photos" = some (Json.arr photos) →
      dictGet (processProduct p) "photos" = none ∧
      (∀ j, j < photos.length →
        dictGet (processProduct p) (imageKey (j + 1)) = photos[j]?) ∧
      (∀ k, k ≠ "photos" → (∀ t, 1 ≤ t → t ≤ photos.length → k ≠ imageKey t) →
        dictGet (processProduct p) k = dictGet p k)) ∧
    (export_to_csv exampleProducts "output.csv" none =
      .ok ⟨["Successfully exported data to output.csv"],
        some [["price", "product_image_1", "product_image_2", "sku", "title"],
              ["100", "url1", "url2", "123", ""],
              ["200", "", "", "456", "Another Item"]]⟩ ∧
      List.map csvLine
          [["price", "product_image_1", "product_image_2", "sku", "title"],
           ["100", "url1", "url2", "123", ""],
           ["200", "", "", "456", "Another Item"]] =
        ["price,product_image_1,product_image_2,sku,title",
         "100,url1,url2,123,",
         "200,,,456,Another Item"]) := by
  refine ⟨?_, ?_, ?_, rfl, rfl⟩
  · intro products path hne
    haveI hto : IsTotal String (fun a b => strLe a b = true) := ⟨fun a b => by
      rcases le_total a b with h | h
      · exact Or.inl ((strLe_iff_le a b).mpr h)
      · exact Or.inr ((strLe_iff_le b a).mpr h)⟩
    haveI htr : IsTrans String (fun a b => strLe a b = true) := ⟨fun a b c hab hbc =>
      (strLe_iff_le a c).mpr
        (le_trans ((strLe_iff_le a b).mp hab) ((strLe_iff_le b c).mp hbc))⟩
    refine ⟨sortedFieldnames (products.map processProduct),
      (products.map processProduct).map
        (fun d => (sortedFieldnames (products.map processProduct)).map (csvCell d)),
      ?_, ?_, ?_, ?_, ?_⟩
    · cases products with
      | nil => exact absurd rfl hne
      | cons p ps => rfl
    · have hs := List.sorted_insertionSort (fun a b => strLe a b = true)
        (((products.map processProduct).map dictKeys).flatten.dedup)
      exact hs.imp (fun hab => (strLe_iff_le _ _).mp hab)
    · have hperm := List.perm_insertionSort (fun a b => strLe a b = true)
        (((products.map processProduct).map dictKeys).flatten.dedup)
      exact hperm.nodup_iff.mpr (List.nodup_dedup _)
    · intro k
      unfold sortedFieldnames
      rw [(List.perm_insertionSort _ _).mem_iff, List.mem_dedup, List.mem_flatten]
      constructor
      · rintro ⟨l, hl, hkl⟩
        rw [List.mem_map] at hl
        obtain ⟨d, hd, rfl⟩ := hl
        rw [List.mem_map] at hd
        obtain ⟨p, hp, rfl⟩ := hd
        exact ⟨p, hp, hkl⟩
      · rintro ⟨p, hp, hk⟩
        refine ⟨dictKeys (processProduct p), ?_, hk⟩
        rw [List.mem_map]
        exact ⟨processProduct p, List.mem_map_of_mem _ hp, rfl⟩
    · rw [List.map_map]
      rfl
  · intro d k h
    unfold csvCell
    rw [h]
  · intro p photos hn hp
    have hproc : processProduct p = addPhotos (dictPop p "photos") photos 1 := by
      unfold processProduct
      rw [hp]
    refine ⟨?_, ?_, ?_⟩
    · rw [hproc, addPhotos_frame photos _ 1 "photos"
        (fun t _ => (imageKey_ne_photos (1 + t)).symm)]
      exact dictGet_dictPop_self p "photos" hn
    · intro j hj
      rw [hproc, show j + 1 = 1 + j from by omega]
      exact addPhotos_index photos _ 1 j hj
    · intro k hk hkimg
      rw [hproc, addPhotos_frame photos _ 1 k
        (fun t ht => hkimg (1 + t) (by omega) (by omega))]
      exact dictGet_dictPop_ne p "photos" k hk

/-- C4 witness: the contract applied to the spec's two-record example. -/
theorem c4_export_to_csv_contract_witness :
    exampleProducts ≠ [] ∧
    (dictKeys exampleRecord1).Nodup ∧
    dictGet (processProduct exampleRecord1) "photos" = none ∧
    (∃ hdr rows,
      export_to_csv exampleProducts "output.csv" none =
        .ok ⟨["Successfully exported data to " ++ "output.csv"], some (hdr :: rows)⟩ ∧
      hdr.Sorted (fun a b : String => a ≤ b) ∧
      hdr.Nodup ∧
      (∀ k, k ∈ hdr ↔ ∃ p ∈ exampleProducts, k ∈ dictKeys (processProduct p)) ∧
      rows = exampleProducts.map (fun p => hdr.map (csvCell (processProduct p)))) :=
  ⟨by simp [exampleProducts], by decide,
   (c4_export_to_csv_contract.2.2.1 exampleRecord1 [Json.str "url1", Json.str "url2"]
     (by decide) rfl).1,
   c4_export_to_csv_contract.1 exampleProducts "output.csv" (by simp [exampleProducts])⟩

/-- C5: exporting an empty product list performs no file write (nothing is
written regardless of the write oracle) and prints the "No products to
export." notice. -/
theorem c5_empty_export_no_write (path : String) (ioErr : Option String) :
    export_to_csv [] path ioErr = .ok ⟨["No products to export."], none⟩ := rfl

/-- C6 counterexample: a record whose `sku` key is present but holds the
falsy value `""` is skipped with the notice and no API call is made, so the
claim's "otherwise update is called with exactly the remaining fields"
(for any present `sku`) fails on the code. -/
theorem c6_falsy_sku_present_but_skipped :
    dictGet [("sku", Json.str "")] "sku" = some (Json.str "") ∧
    runUpdateLoop apiOk [[("sku", Json.str "")]] ⟨[], []⟩ = (none, ⟨[skuNotice], []⟩) :=
  ⟨rfl, rfl⟩

/-- C6 (amended): in the update loop, `sku` is extracted and removed before
the body is built; a record whose `sku` is absent — or present with a falsy
value — is skipped with a console notice, no API call is made for it and
processing continues; otherwise `update_product` is called with exactly the
remaining fields. -/
theorem c6_update_loop_dispatch :
    (∀ (api : Json → PyDict → Except PyError Json) (p : PyDict) rest tr,
      dictGet p "sku" = none →
      runUpdateLoop api (p :: rest) tr =
        runUpdateLoop api rest ⟨tr.printed ++ [skuNotice], tr.calls⟩) ∧
    (∀ (api : Json → PyDict → Except PyError Json) (p : PyDict) rest tr v,
      dictGet p "sku" = some v → pyTruthy v = false →
      runUpdateLoop api (p :: rest) tr =
        runUpdateLoop api rest ⟨tr.printed ++ [skuNotice], tr.calls⟩) ∧
    (∀ (api : Json → PyDict → Except PyError Json) (p : PyDict) rest tr v u,
      dictGet p "sku" = some v → pyTruthy v = true →
      api v (dictPop p "sku") = .ok u →
      runUpdateLoop api (p :: rest) tr =
        runUpdateLoop api rest
          ⟨tr.printed ++ ["Updated product: " ++ pyStrF (jsonGet u "title")],
           tr.calls ++ [(v, dictPop p "sku")]⟩) ∧
    (∀ (api : Json → PyDict → Except PyError Json) (p : PyDict) rest tr v e,
      dictGet p "sku" = some v → pyTruthy v = true →
      api v (dictPop p "sku") = .error e →
      runUpdateLoop api (p :: rest) tr =
        (some e, ⟨tr.printed, tr.calls ++ [(v, dictPop p "sku")]⟩)) :=
  ⟨updateLoop_step_none, updateLoop_step_falsy, updateLoop_step_ok, updateLoop_step_error⟩

/-- C6 witness: the truthy branch applied to the unit test's record
`{"sku": "abc", "price": "99.99"}`: the API is called with `sku` removed. -/
theorem c6_update_loop_dispatch_witness :
    dictGet [("sku", Json.str "abc"), ("price", Json.str "99.99")] "sku" =
      some (Json.str "abc") ∧
    pyTruthy (Json.str "abc") = true ∧
    dictPop [("sku", Json.str "abc"), ("price", Json.str "99.99")] "sku" =
      [("price", Json.str "99.99")] ∧
    runUpdateLoop apiOk [[("sku", Json.str "abc"), ("price", Json.str "99.99")]] ⟨[], []⟩ =
      runUpdateLoop apiOk []
        ⟨[] ++ ["Updated product: " ++
            pyStrF (jsonGet (Json.obj [("title", Json.str "Updated Product")]) "title")],
         [] ++ [(Json.str "abc",
            dictPop [("sku", Json.str "abc"), ("price", Json.str "99.99")] "sku")]⟩ :=
  ⟨rfl, rfl, rfl,
   c6_update_loop_dispatch.2.2.1 apiOk [("sku", Json.str "abc"), ("price", Json.str "99.99")]
     [] ⟨[], []⟩ (Json.str "abc") (Json.obj [("title", Json.str "Updated Product")])
     rfl rfl rfl⟩

/-- C7: a per-record API failure inside the create/update loops is not
caught individually — the loop's result is determined by the prefix up to
and including the failing record, no matter what records follow (none of
them is processed), and a propagated `ValueError` reaches the top-level
handler of `main`, which prints it after the partial output. -/
theorem c7_per_record_failure_aborts :
    (∀ (api : Json → PyDict → Except PyError Json) (pre : List PyDict) (p : PyDict)
        (rest : List PyDict) (tr tr2 : UpdateTrace) (v : Json) (e : PyError),
      runUpdateLoop api pre tr = (none, tr2) →
      dictGet p "sku" = some v → pyTruthy v = true →
      api v (dictPop p "sku") = .error e →
      runUpdateLoop api (pre ++ p :: rest) tr =
        (some e, ⟨tr2.printed, tr2.calls ++ [(v, dictPop p "sku")]⟩)) ∧
    (∀ (capi : PyDict → Except PyError Json) (pre : List PyDict) (p : PyDict)
        (rest : List PyDict) (tr tr2 : CreateTrace) (e : PyError),
      runCreateLoop capi pre tr = (none, tr2) →
      capi p = .error e →
      runCreateLoop capi (pre ++ p :: rest) tr =
        (some e, ⟨tr2.printed, tr2.calls ++ [p]⟩)) ∧
    (∀ (api : Json → PyDict → Except PyError Json) (records : List PyDict)
        (m : String) (tr2 : UpdateTrace),
      runUpdateLoop api records ⟨[], []⟩ = (some (PyError.valueError m), tr2) →
      runUpdateCommand api records = .ok (tr2.printed ++ ["Error: " ++ m])) := by
  refine ⟨?_, ?_, ?_⟩
  · intro api pre p rest tr tr2 v e hpre hv ht ha
    rw [runUpdateLoop_append api pre (p :: rest) tr, hpre]
    exact updateLoop_step_error api p rest tr2 v e hv ht ha
  · intro capi pre p rest tr tr2 e hpre ha
    rw [runCreateLoop_append capi pre (p :: rest) tr, hpre]
    exact createLoop_step_error capi p rest tr2 e ha
  · intro api records m tr2 h
    unfold runUpdateCommand
    rw [h]
    rfl

/-- C7 witness: with an always-failing API, the first record's failure
aborts the loop before the second record, and the `ValueError` is printed
by the top-level handler. -/
theorem c7_per_record_failure_aborts_witness :
    runUpdateLoop apiFail [] ⟨[], []⟩ = (none, ⟨[], []⟩) ∧
    dictGet [("sku", Json.str "123")] "sku" = some (Json.str "123") ∧
    pyTruthy (Json.str "123") = true ∧
    apiFail (Json.str "123") (dictPop [("sku", Json.str "123")] "sku") =
      .error (.valueError "HTTP error occurred: 404 Client Error") ∧
    runUpdateLoop apiFail
        ([] ++ [("sku", Json.str "123")] :: [[("sku", Json.str "456")]]) ⟨[], []⟩ =
      (some (.valueError "HTTP error occurred: 404 Client Error"),
       ⟨[], [] ++ [(Json.str "123", dictPop [("sku", Json.str "123")] "sku")]⟩) :=
  ⟨rfl, rfl, rfl, rfl,
   c7_per_record_failure_aborts.1 apiFail [] [("sku", Json.str "123")]
     [[("sku", Json.str "456")]] ⟨[], []⟩ ⟨[], []⟩ (Json.str "123")
     (.valueError "HTTP error occurred: 404 Client Error") rfl rfl rfl rfl⟩

/-- C8: `export_to_csv` never lets an exception escape (every outcome is a
normal return, whatever the write oracle says), and a write failure on a
non-empty export is reported with a message containing both the output path
and the underlying cause, with nothing written. -/
theorem c8_csv_write_error_caught :
    (∀ (products : List PyDict) (path : String) (ioErr : Option String),
      ∃ out, export_to_csv products path ioErr = .ok out) ∧
    (∀ (products : List PyDict) (path e : String), products ≠ [] →
      export_to_csv products path (some e) =
        .ok ⟨["Error writing to file " ++ path ++ ": " ++ e], none⟩ ∧
      strContains ("Error writing to file " ++ path ++ ": " ++ e) path = true ∧
      strContains ("Error writing to file " ++ path ++ ": " ++ e) e = true) := by
  constructor
  · intro products path ioErr
    cases products with
    | nil => exact ⟨_, rfl⟩
    | cons p ps =>
      cases ioErr with
      | none => exact ⟨_, rfl⟩
      | some e => exact ⟨_, rfl⟩
  · intro products path e hne
    refine ⟨?_, ?_, ?_⟩
    · cases products with
      | nil => exact absurd rfl hne
      | cons p ps => rfl
    · rw [strAppend_assoc ("Error writing to file " ++ path) ": " e]
      exact strContains_middle "Error writing to file " path (": " ++ e)
    · exact strContains_append_right ("Error writing to file " ++ path ++ ": ") e

/-- C8 witness: the write-failure case on the example products. -/
theorem c8_csv_write_error_caught_witness :
    exampleProducts ≠ [] ∧
    export_to_csv exampleProducts "out.csv" (some "disk full") =
      .ok ⟨["Error writing to file " ++ "out.csv" ++ ": " ++ "disk full"], none⟩ ∧
    strContains ("Error writing to file " ++ "out.csv" ++ ": " ++ "disk full")
      "out.csv" = true :=
  ⟨by simp [exampleProducts],
   (c8_csv_write_error_caught.2 exampleProducts "out.csv" "disk full"
     (by simp [exampleProducts])).1,
   (c8_csv_write_error_caught.2 exampleProducts "out.csv" "disk full"
     (by simp [exampleProducts])).2.1⟩

/-- C9: the export flattening loop, run over an explicit object store,
never changes any pre-existing object — every input record (any store index
allocated before the loop) is unchanged — because each iteration works on a
freshly allocated copy, and that copy ends up holding exactly
`processProduct` of the original record. -/
theorem c9_export_leaves_inputs_unchanged :
    (∀ (refs : List Nat) (st : List PyDict) (q : Nat), q < st.length →
      storeGet ((flattenAll st refs).1) q = storeGet st q) ∧
    (∀ (st : List PyDict) (r : Nat),
      storeGet (flattenStep st r).1 (flattenStep st r).2 =
        processProduct (storeGet st r)) := by
  constructor
  · intro refs
    induction refs with
    | nil => intro st q h; rfl
    | cons r rs ih =>
      intro st q h
      show storeGet (flattenAll (flattenStep st r).1 rs).1 q = storeGet st q
      rw [ih (flattenStep st r).1 q (by rw [flattenStep_length]; omega)]
      exact flattenStep_frame st r q h
  · exact flattenStep_result

/-- C9 witness: flattening the example records leaves the input store
entries untouched. -/
theorem c9_export_leaves_inputs_unchanged_witness :
    0 < ([exampleRecord1, exampleRecord2] : List PyDict).length ∧
    storeGet ((flattenAll [exampleRecord1, exampleRecord2] [0, 1]).1) 0 =
      storeGet [exampleRecord1, exampleRecord2] 0 :=
  ⟨by decide,
   c9_export_leaves_inputs_unchanged.1 [0, 1] [exampleRecord1, exampleRecord2] 0 (by decide)⟩

/-- C10: in the update loop a record whose `sku` key is present but falsy
behaves exactly like a record with no `sku`: the loop result equals the one
for the record with `sku` removed, and equals the skip-with-notice
continuation (notice printed, no API call, next record processed). -/
theorem c10_falsy_sku_treated_as_absent (api : Json → PyDict → Except PyError Json)
    (p : PyDict) (rest : List PyDict) (tr : UpdateTrace) (v : Json)
    (hn : (dictKeys p).Nodup) (hv : dictGet p "sku" = some v)
    (hf : pyTruthy v = false) :
    runUpdateLoop api (p :: rest) tr = runUpdateLoop api (dictPop p "sku" :: rest) tr ∧
    runUpdateLoop api (p :: rest) tr =
      runUpdateLoop api rest ⟨tr.printed ++ [skuNotice], tr.calls⟩ := by
  have h2 := updateLoop_step_falsy api p rest tr v hv hf
  constructor
  · rw [h2, updateLoop_step_none api (dictPop p "sku") rest tr
      (dictGet_dictPop_self p "sku" hn)]
  · exact h2

/-- C10 witness: a record with `"sku": 0` is skipped like a record with no
`sku` at all. -/
theorem c10_falsy_sku_treated_as_absent_witness :
    (dictKeys [("sku", Json.num 0), ("price", Json.str "10")]).Nodup ∧
    dictGet [("sku", Json.num 0), ("price", Json.str "10")] "sku" = some (Json.num 0) ∧
    pyTruthy (Json.num 0) = false ∧
    runUpdateLoop apiOk [[("sku", Json.num 0), ("price", Json.str "10")]] ⟨[], []⟩ =
      runUpdateLoop apiOk [] ⟨[] ++ [skuNotice], []⟩ :=
  ⟨by decide, rfl, rfl,
   (c10_falsy_sku_treated_as_absent apiOk [("sku", Json.num 0), ("price", Json.str "10")]
     [] ⟨[], []⟩ (Json.num 0) (by decide) rfl rfl).2⟩
